import Mathlib

/-!
Verification of the maiden repository (a Rockstar interpreter front, two Rust
source files: src/common.rs with the shared AST and error types, and src/web.rs
with the browser shell). The Rust types and functions are embedded shallowly:
machine strings become Lean strings, usize and u32 become Nat, f64 payloads are
modelled for their equality semantics only, and the divergent parser crate
(absent from the sources) is either treated abstractly or modelled from the
specification where a claim requires it.
-/

namespace Maiden

/-- Shorthand for the string type, used for Rust String payloads. A separate
name keeps constructor names such as Expression.String from clashing with the
payload type inside inductive declarations. -/
abbrev Str := String

/-- Model of an f64 payload adequate for the equality semantics the claims
need: `some q` is a non-NaN double with numeric value `q`, `none` is NaN.
Under IEEE comparison two non-NaN doubles are equal exactly when their numeric
values agree, and NaN is equal to nothing, which `f64Eq` below mirrors. -/
abbrev F64 := Option Rat

/-- Mirrors enum Expression in src/common.rs lines 6 to 31: the older type
snapshot kept in this repository. Box indirections are dropped. -/
inductive Expression where
| String (s : Str)
| Floating (f : F64)
| Variable (name : Str)
| True
| False
| Call (name : Str) (args : List Expression)
| Nothing
| Null
| Mysterious
| Is (lhs rhs : Expression)
| Aint (lhs rhs : Expression)
| Add (lhs rhs : Expression)
| Subtract (lhs rhs : Expression)
| Times (lhs rhs : Expression)
| Divide (lhs rhs : Expression)
| And (lhs rhs : Expression)
| GreaterThanOrEqual (lhs rhs : Expression)
| GreaterThan (lhs rhs : Expression)
| LessThanOrEqual (lhs rhs : Expression)
| LessThan (lhs rhs : Expression)

/-- Name of the constructor of an Expression value, for stating which variants
the type has. -/
def Expression.ctorName : Expression → Str
| .String _ => "String"
| .Floating _ => "Floating"
| .Variable _ => "Variable"
| .True => "True"
| .False => "False"
| .Call _ _ => "Call"
| .Nothing => "Nothing"
| .Null => "Null"
| .Mysterious => "Mysterious"
| .Is _ _ => "Is"
| .Aint _ _ => "Aint"
| .Add _ _ => "Add"
| .Subtract _ _ => "Subtract"
| .Times _ _ => "Times"
| .Divide _ _ => "Divide"
| .And _ _ => "And"
| .GreaterThanOrEqual _ _ => "GreaterThanOrEqual"
| .GreaterThan _ _ => "GreaterThan"
| .LessThanOrEqual _ _ => "LessThanOrEqual"
| .LessThan _ _ => "LessThan"

/-- The constructor names of enum Expression, in source order. -/
def expressionCtorNames : List Str :=
  ["String", "Floating", "Variable", "True", "False", "Call", "Nothing",
   "Null", "Mysterious", "Is", "Aint", "Add", "Subtract", "Times", "Divide",
   "And", "GreaterThanOrEqual", "GreaterThan", "LessThanOrEqual", "LessThan"]

/-- The variant list asserted by claim C2, written with the source spelling of
each variant it names: literal Number is the Floating variant and VariableRef
is the Variable variant; Break and Continue are the claimed expression-level
sentinels. -/
def claimedExpressionVariants : List Str :=
  ["String", "Floating", "Variable", "Pronoun", "True", "False", "Null",
   "Nothing", "Mysterious", "Not", "Call", "Is", "Aint", "Add", "Subtract",
   "Times", "Divide", "And", "Or", "Nor", "GreaterThan", "GreaterThanOrEqual",
   "LessThan", "LessThanOrEqual", "Break", "Continue"]

/-- Mirrors enum SymbolType in src/common.rs lines 33 to 76. -/
inductive SymbolType where
| Dummy
| And
| Is
| Build
| Up
| Knock
| Down
| Until
| While
| Next
| Continue
| Return
| Say
| If
| Taking (target : Str)
| Takes
| Comma
| GreaterThanOrEqual
| GreaterThan
| LessThan
| LessThanOrEqual
| Add
| Subtract
| Times
| Put
| Where
| Newline
| Aint
| Else
| Variable (name : Str)
| String (s : Str)
| Words (words : List Str)
| Integer (i : Str)
| Floating (f : Str)
| Comment
| Listen
| Divide
| True
| False
| Null
| Mysterious
deriving DecidableEq

/-- Mirrors the ErrorKind enum produced by the error_chain block in
src/common.rs lines 162 to 238. IoLink stands for the Io foreign link (its
io::Error payload is abstracted to a message string), Nom for the wrapped
nom parsing error (its nom::ErrorKind payload is abstracted to a tag string),
and Msg for the free-form string variant that error_chain always adds.
All line payloads (u32 in the source) are Nat. -/
inductive ErrorKind where
| IoLink (msg : Str)
| Nom (kind : Str)
| UnparsedText (t : Str) (line : Nat)
| MissingVariable (name : Str) (line : Nat)
| MissingFunction (name : Str) (line : Nat)
| WrongArgCount (expected got : Nat) (line : Nat)
| UnbalancedExpression (expression : Str) (line : Nat)
| BadBooleanResolve (expression : Str) (line : Nat)
| NoRunner (expression : Str) (line : Nat)
| BadCommandSequence (sequence : List SymbolType) (line : Nat)
| ParseNumberError (number : Str) (line : Nat)
| NoSymbols (line : Nat)
| BadIs (sequence : List SymbolType) (line : Nat)
| BadPut (sequence : List SymbolType) (line : Nat)
| BadFunctionDeclaration (sequence : List SymbolType) (line : Nat)
| NoEndOfIf (line : Nat)
| ElseWithNoIf (line : Nat)
| NoEndFunction (line : Nat)
| NoEndLoop (line : Nat)
| Unimplemented (description : Str) (line : Nat)
| BadIncrement (sequence : List SymbolType) (line : Nat)
| BadDecrement (sequence : List SymbolType) (line : Nat)
| StackOverflow (depth : Nat) (line : Nat)
| InstructionLimit (line : Nat)
| Msg (s : Str)

/-- Name of the constructor of an ErrorKind value. -/
def ErrorKind.ctorName : ErrorKind → Str
| .IoLink _ => "Io"
| .Nom _ => "Nom"
| .UnparsedText _ _ => "UnparsedText"
| .MissingVariable _ _ => "MissingVariable"
| .MissingFunction _ _ => "MissingFunction"
| .WrongArgCount _ _ _ => "WrongArgCount"
| .UnbalancedExpression _ _ => "UnbalancedExpression"
| .BadBooleanResolve _ _ => "BadBooleanResolve"
| .NoRunner _ _ => "NoRunner"
| .BadCommandSequence _ _ => "BadCommandSequence"
| .ParseNumberError _ _ => "ParseNumberError"
| .NoSymbols _ => "NoSymbols"
| .BadIs _ _ => "BadIs"
| .BadPut _ _ => "BadPut"
| .BadFunctionDeclaration _ _ => "BadFunctionDeclaration"
| .NoEndOfIf _ => "NoEndOfIf"
| .ElseWithNoIf _ => "ElseWithNoIf"
| .NoEndFunction _ => "NoEndFunction"
| .NoEndLoop _ => "NoEndLoop"
| .Unimplemented _ _ => "Unimplemented"
| .BadIncrement _ _ => "BadIncrement"
| .BadDecrement _ _ => "BadDecrement"
| .StackOverflow _ _ => "StackOverflow"
| .InstructionLimit _ => "InstructionLimit"
| .Msg _ => "Msg"

/-- The line number payload carried by an error kind, if the variant has one.
Only the Io foreign link, the wrapped nom error and the Msg variant carry no
line. -/
def ErrorKind.carriedLine : ErrorKind → Option Nat
| .IoLink _ => none
| .Nom _ => none
| .UnparsedText _ line => some line
| .MissingVariable _ line => some line
| .MissingFunction _ line => some line
| .WrongArgCount _ _ line => some line
| .UnbalancedExpression _ line => some line
| .BadBooleanResolve _ line => some line
| .NoRunner _ line => some line
| .BadCommandSequence _ line => some line
| .ParseNumberError _ line => some line
| .NoSymbols line => some line
| .BadIs _ line => some line
| .BadPut _ line => some line
| .BadFunctionDeclaration _ line => some line
| .NoEndOfIf line => some line
| .ElseWithNoIf line => some line
| .NoEndFunction line => some line
| .NoEndLoop line => some line
| .Unimplemented _ line => some line
| .BadIncrement _ line => some line
| .BadDecrement _ line => some line
| .StackOverflow _ line => some line
| .InstructionLimit line => some line
| .Msg _ => none

/-- The constructor names of ErrorKind as declared in the source: the Io
foreign link, the declared error kinds in source order, and the Msg variant
error_chain adds. -/
def errorKindNames : List Str :=
  ["Io", "Nom", "UnparsedText", "MissingVariable", "MissingFunction",
   "WrongArgCount", "UnbalancedExpression", "BadBooleanResolve", "NoRunner",
   "BadCommandSequence", "ParseNumberError", "NoSymbols", "BadIs", "BadPut",
   "BadFunctionDeclaration", "NoEndOfIf", "ElseWithNoIf", "NoEndFunction",
   "NoEndLoop", "Unimplemented", "BadIncrement", "BadDecrement",
   "StackOverflow", "InstructionLimit", "Msg"]

/-- The closed set of error kinds asserted by claim C3, in the order the claim
lists them. -/
def claimedErrorKinds : List Str :=
  ["UnparsedText", "MissingVariable", "MissingFunction", "WrongArgCount",
   "UnbalancedExpression", "BadBooleanResolve", "BadCommandSequence",
   "ParseNumberError", "BadIs", "BadPut", "NoEndOfIf", "ElseWithNoIf",
   "MultipleElse", "NoEndFunction", "NoEndLoop", "ContinueOutsideLoop",
   "BreakOutsideLoop", "Unimplemented", "StackOverflow", "InstructionLimit",
   "UndefinedPronoun", "Infinity", "Incomplete", "BadString", "IoError"]

/-- The error kinds with no line payload. -/
def noLineKinds : List Str := ["Io", "Nom", "Msg"]

/-- Mirrors get_error_line in src/common.rs lines 248 to 275: a match listing
twenty one kinds whose line is returned, with a catch-all arm returning 0.
The catch-all covers the Io foreign link, the wrapped nom error, the Msg
variant, and NoSymbols. -/
def get_error_line : ErrorKind → Nat
| .MissingVariable _ line => line
| .UnparsedText _ line => line
| .MissingFunction _ line => line
| .WrongArgCount _ _ line => line
| .UnbalancedExpression _ line => line
| .NoRunner _ line => line
| .BadCommandSequence _ line => line
| .ParseNumberError _ line => line
| .BadIs _ line => line
| .BadPut _ line => line
| .NoEndOfIf line => line
| .ElseWithNoIf line => line
| .NoEndFunction line => line
| .NoEndLoop line => line
| .BadBooleanResolve _ line => line
| .BadFunctionDeclaration _ line => line
| .BadIncrement _ line => line
| .BadDecrement _ line => line
| .Unimplemented _ line => line
| .StackOverflow _ line => line
| .InstructionLimit line => line
| _ => 0

/-- Mirrors enum Command in src/common.rs lines 86 to 142: the older type
snapshot, in which If, While, Until and FunctionDeclaration carry optional
jump indices (usize positions in the command list, here Nat), Next, Continue
and Else carry a mandatory index, Listen has a mandatory String target, and
EndIf and EndFunction are explicit block terminators. -/
inductive Command where
| Assignment (target : Str) (value : Expression)
| Until (expression : Expression) (loop_end : Option Nat)
| While (expression : Expression) (loop_end : Option Nat)
| If (expression : Expression) (if_end : Option Nat) (else_loc : Option Nat)
| EndIf
| Increment (target : Str) (count : F64)
| Decrement (target : Str) (count : F64)
| Next (loop_start : Nat)
| Continue (loop_start : Nat)
| Say (value : Expression)
| Listen (target : Str)
| FunctionDeclaration (name : Str) (args : List Str) (func_end : Option Nat)
| Return (return_value : Expression)
| EndFunction
| Call (name : Str) (args : List Expression)
| Else (if_start : Nat)

/-- Name of the constructor of a Command value. -/
def Command.ctorName : Command → Str
| .Assignment _ _ => "Assignment"
| .Until _ _ => "Until"
| .While _ _ => "While"
| .If _ _ _ => "If"
| .EndIf => "EndIf"
| .Increment _ _ => "Increment"
| .Decrement _ _ => "Decrement"
| .Next _ => "Next"
| .Continue _ => "Continue"
| .Say _ => "Say"
| .Listen _ => "Listen"
| .FunctionDeclaration _ _ _ => "FunctionDeclaration"
| .Return _ => "Return"
| .EndFunction => "EndFunction"
| .Call _ _ => "Call"
| .Else _ => "Else"

/-- The payload a Command.If carries besides its condition: the optional
if_end and else_loc jump indices into the command list. -/
def Command.ifIndices : Command → Option (Option Nat × Option Nat)
| .If _ if_end else_loc => some (if_end, else_loc)
| _ => none

/-- The target of a Listen command; in the source it is a mandatory String,
not an optional one. -/
def Command.listenTarget : Command → Option Str
| .Listen target => some target
| _ => none

/-- The constructor names of enum Command, in source order. -/
def commandCtorNames : List Str :=
  ["Assignment", "Until", "While", "If", "EndIf", "Increment", "Decrement",
   "Next", "Continue", "Say", "Listen", "FunctionDeclaration", "Return",
   "EndFunction", "Call", "Else"]

/-- The variant list asserted by claim C1. -/
def claimedCommandVariants : List Str :=
  ["Assignment", "If", "While", "Until", "Increment", "Decrement", "Say",
   "Listen", "FunctionDeclaration", "Return", "Call", "Break", "Continue"]

/-- Mirrors struct Function in src/common.rs lines 144 to 148: a location
index (usize) into the program command list plus the ordered argument names.
It holds no body block. -/
structure Function where
  location : Nat
  args : List Str
deriving DecidableEq

/-- Mirrors struct CommandLine in src/common.rs lines 150 to 154. -/
structure CommandLine where
  cmd : Command
  line : Nat

/-- Mirrors struct Program in src/common.rs lines 156 to 160. The HashMap
from function name to Function is modelled as an association list with its
keys understood to be distinct. -/
structure Program where
  commands : List CommandLine
  functions : List (Str × Function)

/-- Shapes a record field can take, for comparing the declared layout of
struct Function with the layout claim C6 asserts. -/
inductive FieldShape where
| commandIndex
| nameList
| commandBlock
deriving DecidableEq

/-- The field layout of struct Function in the source: location is a usize
index into the command list, args is an ordered name list. -/
def functionFieldShapes : List FieldShape :=
  [FieldShape.commandIndex, FieldShape.nameList]

/-- The field layout claim C6 asserts for the Function record: ordered
parameter names plus the function body as a Block. -/
def claimedFunctionFieldShapes : List FieldShape :=
  [FieldShape.nameList, FieldShape.commandBlock]

/-- Lookup of a function by its string name in the program function map,
modelling HashMap get on the association list. -/
def lookupFunction (p : Program) (name : Str) : Option Function :=
  p.functions.lookup name

/-- Equality of two f64 payloads under IEEE comparison: two non-NaN values
compare by numeric value, NaN compares unequal to everything. -/
def f64Eq : F64 → F64 → Bool
| some x, some y => decide (x = y)
| _, _ => false

mutual

/-- Mirrors the derived PartialEq of enum Expression: same constructor,
fields pairwise equal, with f64 fields compared by IEEE equality. -/
def exprEq : Expression → Expression → Bool
| .String s, b => match b with
    | .String t => decide (s = t)
    | _ => false
| .Floating f, b => match b with
    | .Floating g => f64Eq f g
    | _ => false
| .Variable n, b => match b with
    | .Variable m => decide (n = m)
    | _ => false
| .True, b => match b with
    | .True => true
    | _ => false
| .False, b => match b with
    | .False => true
    | _ => false
| .Call n a, b => match b with
    | .Call m c => decide (n = m) && exprListEq a c
    | _ => false
| .Nothing, b => match b with
    | .Nothing => true
    | _ => false
| .Null, b => match b with
    | .Null => true
    | _ => false
| .Mysterious, b => match b with
    | .Mysterious => true
    | _ => false
| .Is a c, b => match b with
    | .Is a2 c2 => exprEq a a2 && exprEq c c2
    | _ => false
| .Aint a c, b => match b with
    | .Aint a2 c2 => exprEq a a2 && exprEq c c2
    | _ => false
| .Add a c, b => match b with
    | .Add a2 c2 => exprEq a a2 && exprEq c c2
    | _ => false
| .Subtract a c, b => match b with
    | .Subtract a2 c2 => exprEq a a2 && exprEq c c2
    | _ => false
| .Times a c, b => match b with
    | .Times a2 c2 => exprEq a a2 && exprEq c c2
    | _ => false
| .Divide a c, b => match b with
    | .Divide a2 c2 => exprEq a a2 && exprEq c c2
    | _ => false
| .And a c, b => match b with
    | .And a2 c2 => exprEq a a2 && exprEq c c2
    | _ => false
| .GreaterThanOrEqual a c, b => match b with
    | .GreaterThanOrEqual a2 c2 => exprEq a a2 && exprEq c c2
    | _ => false
| .GreaterThan a c, b => match b with
    | .GreaterThan a2 c2 => exprEq a a2 && exprEq c c2
    | _ => false
| .LessThanOrEqual a c, b => match b with
    | .LessThanOrEqual a2 c2 => exprEq a a2 && exprEq c c2
    | _ => false
| .LessThan a c, b => match b with
    | .LessThan a2 c2 => exprEq a a2 && exprEq c c2
    | _ => false

/-- Elementwise extension of exprEq to argument lists, as the derived
PartialEq of Vec compares them. -/
def exprListEq : List Expression → List Expression → Bool
| [], [] => true
| x :: xs, y :: ys => exprEq x y && exprListEq xs ys
| _, _ => false

end

mutual

/-- An expression contains no NaN Floating literal. -/
def nanFree : Expression → Bool
| .Floating f => f.isSome
| .Call _ a => nanFreeList a
| .Is a b => nanFree a && nanFree b
| .Aint a b => nanFree a && nanFree b
| .Add a b => nanFree a && nanFree b
| .Subtract a b => nanFree a && nanFree b
| .Times a b => nanFree a && nanFree b
| .Divide a b => nanFree a && nanFree b
| .And a b => nanFree a && nanFree b
| .GreaterThanOrEqual a b => nanFree a && nanFree b
| .GreaterThan a b => nanFree a && nanFree b
| .LessThanOrEqual a b => nanFree a && nanFree b
| .LessThan a b => nanFree a && nanFree b
| _ => true

/-- No expression of the list contains a NaN Floating literal. -/
def nanFreeList : List Expression → Bool
| [] => true
| x :: xs => nanFree x && nanFreeList xs

end

/-- Mirrors the derived PartialEq of enum Command: same constructor, fields
pairwise equal; Expression fields use exprEq and the f64 count fields of
Increment and Decrement use IEEE equality. -/
def commandEq : Command → Command → Bool
| .Assignment t v, c => match c with
    | .Assignment t2 v2 => decide (t = t2) && exprEq v v2
    | _ => false
| .Until e l, c => match c with
    | .Until e2 l2 => exprEq e e2 && decide (l = l2)
    | _ => false
| .While e l, c => match c with
    | .While e2 l2 => exprEq e e2 && decide (l = l2)
    | _ => false
| .If e i el, c => match c with
    | .If e2 i2 el2 => exprEq e e2 && decide (i = i2) && decide (el = el2)
    | _ => false
| .EndIf, c => match c with
    | .EndIf => true
    | _ => false
| .Increment t k, c => match c with
    | .Increment t2 k2 => decide (t = t2) && f64Eq k k2
    | _ => false
| .Decrement t k, c => match c with
    | .Decrement t2 k2 => decide (t = t2) && f64Eq k k2
    | _ => false
| .Next s, c => match c with
    | .Next s2 => decide (s = s2)
    | _ => false
| .Continue s, c => match c with
    | .Continue s2 => decide (s = s2)
    | _ => false
| .Say v, c => match c with
    | .Say v2 => exprEq v v2
    | _ => false
| .Listen t, c => match c with
    | .Listen t2 => decide (t = t2)
    | _ => false
| .FunctionDeclaration n a f, c => match c with
    | .FunctionDeclaration n2 a2 f2 => decide (n = n2) && decide (a = a2) && decide (f = f2)
    | _ => false
| .Return v, c => match c with
    | .Return v2 => exprEq v v2
    | _ => false
| .EndFunction, c => match c with
    | .EndFunction => true
    | _ => false
| .Call n a, c => match c with
    | .Call n2 a2 => decide (n = n2) && exprListEq a a2
    | _ => false
| .Else s, c => match c with
    | .Else s2 => decide (s = s2)
    | _ => false

/-- A command contains no NaN f64 payload, in an expression or in an
increment or decrement count. -/
def nanFreeCmd : Command → Bool
| .Assignment _ v => nanFree v
| .Until e _ => nanFree e
| .While e _ => nanFree e
| .If e _ _ => nanFree e
| .Increment _ k => k.isSome
| .Decrement _ k => k.isSome
| .Say v => nanFree v
| .Return v => nanFree v
| .Call _ a => nanFreeList a
| _ => true

/-- Mirrors the derived PartialEq of struct CommandLine: both fields equal. -/
def commandLineEq (a b : CommandLine) : Bool :=
  commandEq a.cmd b.cmd && decide (a.line = b.line)

/-- Mirrors the derived PartialEq of Vec of CommandLine: elementwise. -/
def commandLinesEq : List CommandLine → List CommandLine → Bool
| [], [] => true
| x :: xs, y :: ys => commandLineEq x y && commandLinesEq xs ys
| _, _ => false

/-- Mirrors the PartialEq of HashMap from String to Function: the maps are
equal when they have the same size and every key-value pair of the left map
is found, with an equal value, in the right map. -/
def functionsEq (f g : List (Str × Function)) : Bool :=
  decide (f.length = g.length) &&
    f.all (fun kv => decide (g.lookup kv.1 = some kv.2))

/-- Mirrors the derived PartialEq of struct Program. -/
def programEq (p q : Program) : Bool :=
  commandLinesEq p.commands q.commands && functionsEq p.functions q.functions

/-- No command of the program contains a NaN f64 payload. -/
def nanFreeProgram (p : Program) : Bool :=
  p.commands.all (fun cl => nanFreeCmd cl.cmd)

/-- Mirrors struct Model in src/web.rs lines 5 to 8: the text-area content
and the displayed output. -/
structure Model where
  value : Str
  program : Str

/-- Mirrors enum Msg in src/web.rs lines 10 to 13. -/
inductive Msg where
| GotInput (s : Str)
| ClickRun

/-- Mirrors Model::update in src/web.rs lines 28 to 46, with the functions of
the missing parser crate passed in abstractly: parse stands for
parser::parse returning either the error kind carried by the error value or
the parsed program, printProgram for parser::print_program, and debugFmt for
the debug formatting the source applies to the error kind. GotInput stores
the new text; ClickRun parses the stored text and stores either the debug
format of the error or the printed program; both branches request a
re-render, which is the returned Bool. -/
def update {P E : Type} (parse : Str → Except E P) (printProgram : P → Str)
    (debugFmt : E → Str) (m : Model) (msg : Msg) : Model × Bool :=
  match msg with
  | .GotInput new_value => ({ m with value := new_value }, true)
  | .ClickRun =>
      match parse m.value with
      | .error err => ({ m with program := debugFmt err }, true)
      | .ok val => ({ m with program := printProgram val }, true)

/-- Modelled from the spec: the hard cap of the instruction counter, one
instruction per command executed, from the execution limits section; the
display text of ErrorKind.InstructionLimit in src/common.rs line 235 names
the same number. -/
def maxInstructions : Nat := 10000000

/-- Modelled from the spec: the cap of the recursion-depth counter from the
execution limits section. -/
def maxDepth : Nat := 1000

/-- Modelled from the spec: executing one command increments the instruction
counter, and execution aborts with InstructionLimit at the given source line
exactly when the incremented count exceeds maxInstructions. The evaluator
itself is in the parser crate, absent from the sources. -/
def tickInstr (line count : Nat) : Except ErrorKind Nat :=
  if maxInstructions < count + 1 then Except.error (ErrorKind.InstructionLimit line)
  else Except.ok (count + 1)

/-- Modelled from the spec: entering a function call increments the
recursion-depth counter, and execution aborts with StackOverflow carrying the
cap exactly when the incremented depth exceeds maxDepth. -/
def enterCall (line depth : Nat) : Except ErrorKind Nat :=
  if maxDepth < depth + 1 then Except.error (ErrorKind.StackOverflow maxDepth line)
  else Except.ok (depth + 1)

/-- Modelled from the spec: execution of the program While true / Build
counter up, starting from the given instruction count. Each iteration of the
always-true loop executes the single body command on source line 2 and ticks
the instruction counter; the run ends with the instruction-limit error and
the number of commands executed. -/
def runWhileTrueBuildUp (count : Nat) : ErrorKind × Nat :=
  match h : tickInstr 2 count with
  | .error e => (e, count)
  | .ok c => runWhileTrueBuildUp c

termination_by maxInstructions + 1 - count
decreasing_by
  unfold tickInstr at h
  split at h
  · simp at h
  · simp only [Except.ok.injEq] at h
    rename_i hcond
    omega

/-- Modelled from the spec: the runtime value variants from the data model
section. Number carries an f64, FunctionVal is the function value referenced
by name. -/
inductive Value where
| Number (f : F64)
| String (s : Str)
| Boolean (b : Bool)
| Null
| Mysterious
| FunctionVal (name : Str)

/-- Modelled from the spec: the equality operator Is of the evaluator, per
the coercion table. Same-type values compare by value; Null coerces to 0
against a Number and to false against a Boolean; a Boolean coerces to 0 or 1
against a Number; Mysterious compares unequal to everything including itself;
the remaining cross-type comparisons are runtime errors, returned as none
since the spec does not fix their error kind. -/
def valueIs : Value → Value → Option Bool
| .Mysterious, _ => some false
| _, .Mysterious => some false
| .Number x, .Number y => some (f64Eq x y)
| .Number x, .Null => some (f64Eq x (some 0))
| .Null, .Number y => some (f64Eq (some 0) y)
| .Number x, .Boolean b => some (f64Eq x (some (if b then 1 else 0)))
| .Boolean b, .Number y => some (f64Eq (some (if b then 1 else 0)) y)
| .String s, .String t => some (decide (s = t))
| .Boolean a, .Boolean b => some (decide (a = b))
| .Boolean a, .Null => some (decide (a = false))
| .Null, .Boolean b => some (decide (b = false))
| .Null, .Null => some true
| .FunctionVal f, .FunctionVal g => some (decide (f = g))
| _, _ => none

/-- Modelled from the spec: the inequality operator Aint, the negation of Is
where Is is defined. -/
def valueAint (a b : Value) : Option Bool :=
  (valueIs a b).map (fun r => !r)

/-! Helper lemmas about the structural equalities. -/

theorem f64Eq_sound : (x y : F64) → f64Eq x y = true → x.isSome = true ∧ x = y
| some a, some b, h => by
    simp only [f64Eq, decide_eq_true_eq] at h
    subst h
    simp
| some a, none, h => by simp [f64Eq] at h
| none, _, h => by simp [f64Eq] at h

theorem f64Eq_refl : (x : F64) → x.isSome = true → f64Eq x x = true
| some a, _ => by simp [f64Eq]
| none, h => by simp at h

theorem nanFreeList_eq_all : (l : List Expression) → nanFreeList l = l.all nanFree
| [] => by simp [nanFreeList]
| x :: xs => by simp [nanFreeList, List.all_cons, nanFreeList_eq_all xs]

mutual

theorem exprEq_sound : (a b : Expression) → exprEq a b = true → nanFree a = true ∧ a = b
| .String s, b, h => by
    cases b <;> simp [exprEq] at h
    subst h
    simp [nanFree]
| .Floating f, b, h => by
    cases b <;> simp [exprEq] at h
    rename_i g
    obtain ⟨hs, e⟩ := f64Eq_sound f g h
    subst e
    simp [nanFree, hs]
| .Variable n, b, h => by
    cases b <;> simp [exprEq] at h
    subst h
    simp [nanFree]
| .True, b, h => by
    cases b <;> simp [exprEq] at h
    simp [nanFree]
| .False, b, h => by
    cases b <;> simp [exprEq] at h
    simp [nanFree]
| .Call n a, b, h => by
    cases b <;> simp [exprEq] at h
    rename_i m c
    obtain ⟨e, h2⟩ := h
    obtain ⟨hn, ec⟩ := exprListEq_sound a c h2
    subst e; subst ec
    simp [nanFree, nanFreeList_eq_all, hn]
| .Nothing, b, h => by
    cases b <;> simp [exprEq] at h
    simp [nanFree]
| .Null, b, h => by
    cases b <;> simp [exprEq] at h
    simp [nanFree]
| .Mysterious, b, h => by
    cases b <;> simp [exprEq] at h
    simp [nanFree]
| .Is a c, b, h => by
    cases b <;> simp [exprEq] at h
    rename_i a2 c2
    obtain ⟨h1, h2⟩ := h
    obtain ⟨hn1, e1⟩ := exprEq_sound a a2 h1
    obtain ⟨hn2, e2⟩ := exprEq_sound c c2 h2
    subst e1; subst e2
    simp [nanFree, hn1, hn2]
| .Aint a c, b, h => by
    cases b <;> simp [exprEq] at h
    rename_i a2 c2
    obtain ⟨h1, h2⟩ := h
    obtain ⟨hn1, e1⟩ := exprEq_sound a a2 h1
    obtain ⟨hn2, e2⟩ := exprEq_sound c c2 h2
    subst e1; subst e2
    simp [nanFree, hn1, hn2]
| .Add a c, b, h => by
    cases b <;> simp [exprEq] at h
    rename_i a2 c2
    obtain ⟨h1, h2⟩ := h
    obtain ⟨hn1, e1⟩ := exprEq_sound a a2 h1
    obtain ⟨hn2, e2⟩ := exprEq_sound c c2 h2
    subst e1; subst e2
    simp [nanFree, hn1, hn2]
| .Subtract a c, b, h => by
    cases b <;> simp [exprEq] at h
    rename_i a2 c2
    obtain ⟨h1, h2⟩ := h
    obtain ⟨hn1, e1⟩ := exprEq_sound a a2 h1
    obtain ⟨hn2, e2⟩ := exprEq_sound c c2 h2
    subst e1; subst e2
    simp [nanFree, hn1, hn2]
| .Times a c, b, h => by
    cases b <;> simp [exprEq] at h
    rename_i a2 c2
    obtain ⟨h1, h2⟩ := h
    obtain ⟨hn1, e1⟩ := exprEq_sound a a2 h1
    obtain ⟨hn2, e2⟩ := exprEq_sound c c2 h2
    subst e1; subst e2
    simp [nanFree, hn1, hn2]
| .Divide a c, b, h => by
    cases b <;> simp [exprEq] at h
    rename_i a2 c2
    obtain ⟨h1, h2⟩ := h
    obtain ⟨hn1, e1⟩ := exprEq_sound a a2 h1
    obtain ⟨hn2, e2⟩ := exprEq_sound c c2 h2
    subst e1; subst e2
    simp [nanFree, hn1, hn2]
| .And a c, b, h => by
    cases b <;> simp [exprEq] at h
    rename_i a2 c2
    obtain ⟨h1, h2⟩ := h
    obtain ⟨hn1, e1⟩ := exprEq_sound a a2 h1
    obtain ⟨hn2, e2⟩ := exprEq_sound c c2 h2
    subst e1; subst e2
    simp [nanFree, hn1, hn2]
| .GreaterThanOrEqual a c, b, h => by
    cases b <;> simp [exprEq] at h
    rename_i a2 c2
    obtain ⟨h1, h2⟩ := h
    obtain ⟨hn1, e1⟩ := exprEq_sound a a2 h1
    obtain ⟨hn2, e2⟩ := exprEq_sound c c2 h2
    subst e1; subst e2
    simp [nanFree, hn1, hn2]
| .GreaterThan a c, b, h => by
    cases b <;> simp [exprEq] at h
    rename_i a2 c2
    obtain ⟨h1, h2⟩ := h
    obtain ⟨hn1, e1⟩ := exprEq_sound a a2 h1
    obtain ⟨hn2, e2⟩ := exprEq_sound c c2 h2
    subst e1; subst e2
    simp [nanFree, hn1, hn2]
| .LessThanOrEqual a c, b, h => by
    cases b <;> simp [exprEq] at h
    rename_i a2 c2
    obtain ⟨h1, h2⟩ := h
    obtain ⟨hn1, e1⟩ := exprEq_sound a a2 h1
    obtain ⟨hn2, e2⟩ := exprEq_sound c c2 h2
    subst e1; subst e2
    simp [nanFree, hn1, hn2]
| .LessThan a c, b, h => by
    cases b <;> simp [exprEq] at h
    rename_i a2 c2
    obtain ⟨h1, h2⟩ := h
    obtain ⟨hn1, e1⟩ := exprEq_sound a a2 h1
    obtain ⟨hn2, e2⟩ := exprEq_sound c c2 h2
    subst e1; subst e2
    simp [nanFree, hn1, hn2]

theorem exprListEq_sound : (l m : List Expression) → exprListEq l m = true → l.all nanFree = true ∧ l = m
| [], m, h => by
    cases m with
    | nil => simp
    | cons y ys => simp [exprListEq] at h
| x :: xs, m, h => by
    cases m with
    | nil => simp [exprListEq] at h
    | cons y ys =>
        simp only [exprListEq, Bool.and_eq_true] at h
        obtain ⟨h1, h2⟩ := h
        obtain ⟨hn, e⟩ := exprEq_sound x y h1
        obtain ⟨hns, es⟩ := exprListEq_sound xs ys h2
        subst e; subst es
        simp [List.all_cons, hn, hns]

end

mutual

theorem exprEq_refl : (e : Expression) → nanFree e = true → exprEq e e = true
| .String s, _ => by simp [exprEq]
| .Floating f, h => by
    cases f with
    | none => simp [nanFree] at h
    | some x => simp [exprEq, f64Eq]
| .Variable n, _ => by simp [exprEq]
| .True, _ => by simp [exprEq]
| .False, _ => by simp [exprEq]
| .Call n a, h => by
    have hl := exprListEq_refl a (by simpa [nanFree, nanFreeList_eq_all] using h)
    simp [exprEq, hl]
| .Nothing, _ => by simp [exprEq]
| .Null, _ => by simp [exprEq]
| .Mysterious, _ => by simp [exprEq]
| .Is a c, h => by
    obtain ⟨h1, h2⟩ := by simpa [nanFree] using h
    simp [exprEq, exprEq_refl a h1, exprEq_refl c h2]
| .Aint a c, h => by
    obtain ⟨h1, h2⟩ := by simpa [nanFree] using h
    simp [exprEq, exprEq_refl a h1, exprEq_refl c h2]
| .Add a c, h => by
    obtain ⟨h1, h2⟩ := by simpa [nanFree] using h
    simp [exprEq, exprEq_refl a h1, exprEq_refl c h2]
| .Subtract a c, h => by
    obtain ⟨h1, h2⟩ := by simpa [nanFree] using h
    simp [exprEq, exprEq_refl a h1, exprEq_refl c h2]
| .Times a c, h => by
    obtain ⟨h1, h2⟩ := by simpa [nanFree] using h
    simp [exprEq, exprEq_refl a h1, exprEq_refl c h2]
| .Divide a c, h => by
    obtain ⟨h1, h2⟩ := by simpa [nanFree] using h
    simp [exprEq, exprEq_refl a h1, exprEq_refl c h2]
| .And a c, h => by
    obtain ⟨h1, h2⟩ := by simpa [nanFree] using h
    simp [exprEq, exprEq_refl a h1, exprEq_refl c h2]
| .GreaterThanOrEqual a c, h => by
    obtain ⟨h1, h2⟩ := by simpa [nanFree] using h
    simp [exprEq, exprEq_refl a h1, exprEq_refl c h2]
| .GreaterThan a c, h => by
    obtain ⟨h1, h2⟩ := by simpa [nanFree] using h
    simp [exprEq, exprEq_refl a h1, exprEq_refl c h2]
| .LessThanOrEqual a c, h => by
    obtain ⟨h1, h2⟩ := by simpa [nanFree] using h
    simp [exprEq, exprEq_refl a h1, exprEq_refl c h2]
| .LessThan a c, h => by
    obtain ⟨h1, h2⟩ := by simpa [nanFree] using h
    simp [exprEq, exprEq_refl a h1, exprEq_refl c h2]

theorem exprListEq_refl : (l : List Expression) → l.all nanFree = true → exprListEq l l = true
| [], _ => by simp [exprListEq]
| x :: xs, h => by
    rw [List.all_cons, Bool.and_eq_true] at h
    simp [exprListEq, exprEq_refl x h.1, exprListEq_refl xs h.2]

end

theorem exprEq_symm (a b : Expression) : exprEq a b = exprEq b a := by
  cases hab : exprEq a b with
  | true =>
      obtain ⟨hn, e⟩ := exprEq_sound a b hab
      subst e
      exact (exprEq_refl a hn).symm
  | false =>
      cases hba : exprEq b a with
      | true =>
          obtain ⟨hn, e⟩ := exprEq_sound b a hba
          subst e
          rw [exprEq_refl b hn] at hab
          exact hab.symm
      | false => rfl

theorem exprEq_trans (a b c : Expression) (h1 : exprEq a b = true) (h2 : exprEq b c = true) :
    exprEq a c = true := by
  obtain ⟨hn1, e1⟩ := exprEq_sound a b h1
  obtain ⟨hn2, e2⟩ := exprEq_sound b c h2
  subst e1; subst e2
  exact exprEq_refl a hn1

theorem commandEq_refl : (c : Command) → nanFreeCmd c = true → commandEq c c = true
| .Assignment t v, h => by
    simp only [nanFreeCmd] at h
    simp [commandEq, exprEq_refl v h]
| .Until e l, h => by
    simp only [nanFreeCmd] at h
    simp [commandEq, exprEq_refl e h]
| .While e l, h => by
    simp only [nanFreeCmd] at h
    simp [commandEq, exprEq_refl e h]
| .If e i el, h => by
    simp only [nanFreeCmd] at h
    simp [commandEq, exprEq_refl e h]
| .EndIf, _ => by simp [commandEq]
| .Increment t k, h => by
    simp only [nanFreeCmd] at h
    simp [commandEq, f64Eq_refl k h]
| .Decrement t k, h => by
    simp only [nanFreeCmd] at h
    simp [commandEq, f64Eq_refl k h]
| .Next s, _ => by simp [commandEq]
| .Continue s, _ => by simp [commandEq]
| .Say v, h => by
    simp only [nanFreeCmd] at h
    simp [commandEq, exprEq_refl v h]
| .Listen t, _ => by simp [commandEq]
| .FunctionDeclaration n a f, _ => by simp [commandEq]
| .Return v, h => by
    simp only [nanFreeCmd] at h
    simp [commandEq, exprEq_refl v h]
| .EndFunction, _ => by simp [commandEq]
| .Call n a, h => by
    simp only [nanFreeCmd, nanFreeList_eq_all] at h
    simp [commandEq, exprListEq_refl a h]
| .Else s, _ => by simp [commandEq]

theorem commandLineEq_refl (cl : CommandLine) (h : nanFreeCmd cl.cmd = true) :
    commandLineEq cl cl = true := by
  simp [commandLineEq, commandEq_refl cl.cmd h]

theorem commandLinesEq_refl : (ls : List CommandLine) →
    (∀ cl ∈ ls, nanFreeCmd cl.cmd = true) → commandLinesEq ls ls = true
| [], _ => by simp [commandLinesEq]
| x :: xs, h => by
    have hx := commandLineEq_refl x (h x (by simp))
    have hxs := commandLinesEq_refl xs (fun cl hm => h cl (by simp [hm]))
    simp [commandLinesEq, hx, hxs]

theorem lookup_self : (f : List (Str × Function)) → (f.map Prod.fst).Nodup →
    ∀ kv ∈ f, f.lookup kv.1 = some kv.2
| [], _, kv, hm => by simp at hm
| (k, v) :: rest, hnd, kv, hm => by
    rw [List.map_cons, List.nodup_cons] at hnd
    rcases List.mem_cons.mp hm with he | he
    · subst he
      simp [List.lookup]
    · have hne : kv.1 ≠ k := by
        intro e
        have hmem : kv.1 ∈ rest.map Prod.fst := List.mem_map_of_mem Prod.fst he
        rw [e] at hmem
        exact hnd.1 hmem
      have : (kv.1 == k) = false := beq_eq_false_iff_ne.mpr hne
      simp [List.lookup, this, lookup_self rest hnd.2 kv he]

theorem functionsEq_refl (f : List (Str × Function)) (hnd : (f.map Prod.fst).Nodup) :
    functionsEq f f = true := by
  simp only [functionsEq, Bool.and_eq_true, decide_eq_true_eq, List.all_eq_true]
  exact ⟨by simp, fun kv hm => by simp [lookup_self f hnd kv hm]⟩

theorem programEq_refl (p : Program) (hnd : (p.functions.map Prod.fst).Nodup)
    (hnan : nanFreeProgram p = true) : programEq p p = true := by
  rw [nanFreeProgram, List.all_eq_true] at hnan
  simp [programEq, commandLinesEq_refl p.commands hnan, functionsEq_refl p.functions hnd]

/-- A program whose single Say command carries a NaN literal, refuting
reflexivity of the derived equality in general. -/
def nanProgram : Program :=
  { commands := [{ cmd := Command.Say (Expression.Floating none), line := 1 }],
    functions := [] }

/-- A small NaN-free program with one function entry, used to witness the
reflexivity statements at a concrete input. -/
def sampleProgram : Program :=
  { commands := [{ cmd := Command.Say (Expression.Variable "result"), line := 1 }],
    functions := [("multiply", { location := 0, args := ["a", "b"] })] }

theorem runWhileTrueBuildUp_eq : (count : Nat) → count ≤ maxInstructions →
    runWhileTrueBuildUp count = (ErrorKind.InstructionLimit 2, maxInstructions)
| count, h => by
    rw [runWhileTrueBuildUp]
    by_cases hc : maxInstructions < count + 1
    · have hce : count = maxInstructions := by omega
      subst hce
      simp [tickInstr, hc]
    · have ht : tickInstr 2 count = Except.ok (count + 1) := by simp [tickInstr, hc]
      rw [ht]
      exact runWhileTrueBuildUp_eq (count + 1) (by omega)
termination_by count _ => maxInstructions + 1 - count
decreasing_by omega

theorem lookupFunction_mem : (fns : List (Str × Function)) → (name : Str) → (f : Function) →
    fns.lookup name = some f → (name, f) ∈ fns
| [], name, f, h => by simp [List.lookup] at h
| (k, v) :: rest, name, f, h => by
    by_cases he : name = k
    · subst he
      simp [List.lookup] at h
      simp [h]
    · have : (name == k) = false := beq_eq_false_iff_ne.mpr he
      rw [List.lookup, this] at h
      exact List.mem_cons_of_mem _ (lookupFunction_mem rest name f h)

/-! Claim theorems. -/

/-- Claim C1, counterexample: Command, as declared in the source, refutes the
claimed variant list. The claimed Break variant does not exist, the variant
EndIf exists but is not claimed, and an If carries optional jump indices into
the command list rather than then and otherwise blocks. -/
theorem claim1_counterexample :
    ("Break" ∈ claimedCommandVariants ∧ commandCtorNames.contains "Break" = false)
  ∧ ("EndIf" ∈ commandCtorNames ∧ claimedCommandVariants.contains "EndIf" = false)
  ∧ Command.ifIndices (Command.If Expression.Null (some 3) (some 5)) =
      some (some 3, some 5) := by
  decide

/-- Claim C1, amended: the statement AST type Command has exactly the variants
Assignment(target, value), Until(expression, loop_end?), While(expression,
loop_end?), If(expression, if_end?, else_loc?) carrying optional jump indices
into the command list rather than blocks, EndIf, Increment(target, count),
Decrement(target, count), Next(loop_start), Continue(loop_start), Say(value),
Listen with a mandatory target, FunctionDeclaration(name, args, func_end?),
Return(return_value), EndFunction, Call(name, args) and Else(if_start); there
is no Break variant. -/
theorem claim1_command_variants :
    (∀ c : Command, c.ctorName ∈ commandCtorNames)
  ∧ commandCtorNames.contains "Break" = false
  ∧ (∀ (e : Expression) (a b : Option Nat),
      Command.ifIndices (Command.If e a b) = some (a, b))
  ∧ (∀ t : Str, Command.listenTarget (Command.Listen t) = some t) := by
  refine ⟨fun c => ?_, by decide, fun e a b => rfl, fun t => rfl⟩
  cases c <;> simp [Command.ctorName, commandCtorNames]

/-- Claim C2, counterexample: the Expression enum of the source has no
Pronoun, Not, Or, Nor, Break or Continue variant, though the claim lists all
six. -/
theorem claim2_counterexample :
    ("Pronoun" ∈ claimedExpressionVariants ∧ expressionCtorNames.contains "Pronoun" = false)
  ∧ ("Not" ∈ claimedExpressionVariants ∧ expressionCtorNames.contains "Not" = false)
  ∧ ("Or" ∈ claimedExpressionVariants ∧ expressionCtorNames.contains "Or" = false)
  ∧ ("Nor" ∈ claimedExpressionVariants ∧ expressionCtorNames.contains "Nor" = false)
  ∧ ("Break" ∈ claimedExpressionVariants ∧ expressionCtorNames.contains "Break" = false)
  ∧ ("Continue" ∈ claimedExpressionVariants ∧ expressionCtorNames.contains "Continue" = false) := by
  decide

/-- Claim C2, amended: the expression AST type Expression is a tagged variant
with exactly the cases String, Floating, Variable, True, False, Call(name,
args), Nothing, Null, Mysterious and the binary operators Is, Aint, Add,
Subtract, Times, Divide, And, GreaterThanOrEqual, GreaterThan,
LessThanOrEqual and LessThan; it has no Pronoun, Not, Or, Nor, Break or
Continue case. -/
theorem claim2_expression_variants :
    (∀ e : Expression, e.ctorName ∈ expressionCtorNames)
  ∧ (∀ e : Expression,
      (["Pronoun", "Not", "Or", "Nor", "Break", "Continue"] : List Str).contains
        e.ctorName = false) := by
  constructor
  · intro e; cases e <;> simp [Expression.ctorName, expressionCtorNames]
  · intro e; cases e <;> simp [Expression.ctorName]

/-- Claim C3, counterexample: the error kinds of the source refute the claimed
closed set. MultipleElse and Infinity are claimed but not declared, NoRunner
and NoSymbols are declared but not claimed, and the wrapped nom parsing error
carries no source line. -/
theorem claim3_counterexample :
    ("MultipleElse" ∈ claimedErrorKinds ∧ errorKindNames.contains "MultipleElse" = false)
  ∧ ("Infinity" ∈ claimedErrorKinds ∧ errorKindNames.contains "Infinity" = false)
  ∧ ("NoRunner" ∈ errorKindNames ∧ claimedErrorKinds.contains "NoRunner" = false)
  ∧ ("NoSymbols" ∈ errorKindNames ∧ claimedErrorKinds.contains "NoSymbols" = false)
  ∧ ErrorKind.carriedLine (ErrorKind.Nom "Alpha") = none := by
  decide

/-- Claim C3, amended: the error kinds form exactly the closed set consisting
of the Io foreign link, the wrapped nom error, UnparsedText, MissingVariable,
MissingFunction, WrongArgCount, UnbalancedExpression, BadBooleanResolve,
NoRunner, BadCommandSequence, ParseNumberError, NoSymbols, BadIs, BadPut,
BadFunctionDeclaration, NoEndOfIf, ElseWithNoIf, NoEndFunction, NoEndLoop,
Unimplemented, BadIncrement, BadDecrement, StackOverflow, InstructionLimit
and the generated Msg variant; every kind carries a source line except the Io
link, the nom wrapper and Msg. -/
theorem claim3_error_kinds :
    (∀ e : ErrorKind, e.ctorName ∈ errorKindNames)
  ∧ (∀ e : ErrorKind, e.carriedLine.isSome = true ∨ e.ctorName ∈ noLineKinds) := by
  constructor
  · intro e; cases e <;> simp [ErrorKind.ctorName, errorKindNames]
  · intro e; cases e <;> simp [ErrorKind.carriedLine, ErrorKind.ctorName, noLineKinds]

/-- Claim C4, counterexample: get_error_line returns 0 for NoSymbols although
that kind carries a perfectly known line payload, so a returned 0 does not
mean the line is unknown. -/
theorem claim4_counterexample :
    get_error_line (ErrorKind.NoSymbols 7) = 0
  ∧ ErrorKind.carriedLine (ErrorKind.NoSymbols 7) = some 7 := by
  decide

/-- Claim C4, amended: for every error kind, get_error_line returns the
carried line with 0 standing in when no line is carried, except for
NoSymbols, where it returns 0 despite the carried line being present. -/
theorem claim4_line_extraction :
    ∀ e : ErrorKind,
      get_error_line e = e.carriedLine.getD 0
    ∨ (∃ l : Nat, e = ErrorKind.NoSymbols l ∧ get_error_line e = 0
        ∧ e.carriedLine = some l) := by
  intro e
  cases e <;> first
    | exact Or.inl rfl
    | (rename_i l; exact Or.inr ⟨l, rfl, rfl, rfl⟩)

/-- Claim C5: the evaluator counts one instruction per command executed and
aborts with InstructionLimit exactly when the count exceeds the hard cap of
10,000,000; the recursion-depth counter has a cap of 1,000 whose excess
raises StackOverflow; and the program While true / Build counter up ends with
the InstructionLimit error after exactly 10,000,000 executed commands. -/
theorem claim5_execution_limits :
    (∀ line count : Nat,
        (maxInstructions < count + 1 →
          tickInstr line count = Except.error (ErrorKind.InstructionLimit line))
      ∧ (count + 1 ≤ maxInstructions →
          tickInstr line count = Except.ok (count + 1)))
  ∧ (∀ line depth : Nat,
        (maxDepth < depth + 1 →
          enterCall line depth = Except.error (ErrorKind.StackOverflow maxDepth line))
      ∧ (depth + 1 ≤ maxDepth → enterCall line depth = Except.ok (depth + 1)))
  ∧ runWhileTrueBuildUp 0 = (ErrorKind.InstructionLimit 2, maxInstructions)
  ∧ maxInstructions = 10000000 ∧ maxDepth = 1000 := by
  refine ⟨fun line count => ⟨fun h => ?_, fun h => ?_⟩,
          fun line depth => ⟨fun h => ?_, fun h => ?_⟩,
          runWhileTrueBuildUp_eq 0 (by decide), rfl, rfl⟩
  · rw [tickInstr, if_pos h]
  · rw [tickInstr, if_neg (by omega)]
  · rw [enterCall, if_pos h]
  · rw [enterCall, if_neg (by omega)]

/-- Claim C5 witness: the limits evaluated at concrete counts. -/
theorem claim5_witness :
    tickInstr 2 maxInstructions = Except.error (ErrorKind.InstructionLimit 2)
  ∧ tickInstr 1 0 = Except.ok 1
  ∧ enterCall 3 maxDepth = Except.error (ErrorKind.StackOverflow maxDepth 3)
  ∧ enterCall 1 0 = Except.ok 1 :=
  ⟨(claim5_execution_limits.1 2 maxInstructions).1 (by decide),
   (claim5_execution_limits.1 1 0).2 (by decide),
   (claim5_execution_limits.2.1 3 maxDepth).1 (by decide),
   (claim5_execution_limits.2.1 1 0).2 (by decide)⟩

/-- Claim C6, counterexample: the Function record of the source stores a
usize location index into the command list together with the argument names,
not the function body as a Block as the claim asserts. -/
theorem claim6_counterexample :
    (FieldShape.commandBlock ∈ claimedFunctionFieldShapes
      ∧ functionFieldShapes.contains FieldShape.commandBlock = false)
  ∧ (FieldShape.commandIndex ∈ functionFieldShapes
      ∧ claimedFunctionFieldShapes.contains FieldShape.commandIndex = false)
  ∧ (Function.mk 2 ["x"]).location = 2 := by
  decide

/-- Claim C6, amended: a Program consists of a list of top-level command
lines plus a mapping from function name to a Function record holding exactly
a location index into the command list and the ordered argument names (not a
body block); functions are referenced through the map by their string name:
a successful lookup returns an entry of the map. -/
theorem claim6_program_shape :
    (∀ f : Function, f = Function.mk f.location f.args)
  ∧ (∀ p : Program, p = Program.mk p.commands p.functions)
  ∧ (∀ (p : Program) (name : Str) (f : Function),
      lookupFunction p name = some f → (name, f) ∈ p.functions) :=
  ⟨fun _ => rfl, fun _ => rfl,
   fun p name f h => lookupFunction_mem p.functions name f h⟩

/-- Claim C6 witness: looking up the function of the sample program returns
its map entry. -/
theorem claim6_witness :
    ("multiply", Function.mk 0 ["a", "b"]) ∈ sampleProgram.functions :=
  claim6_program_shape.2.2 sampleProgram "multiply" (Function.mk 0 ["a", "b"])
    (by decide)

/-- Claim C8: under the equality operator Is, Mysterious compares unequal to
every value including itself, and under Aint it compares distinct from
everything. -/
theorem claim8_mysterious_never_equal :
    valueIs Value.Mysterious Value.Mysterious = some false
  ∧ (∀ v : Value,
        valueIs Value.Mysterious v = some false
      ∧ valueIs v Value.Mysterious = some false
      ∧ valueAint Value.Mysterious v = some true
      ∧ valueAint v Value.Mysterious = some true) := by
  refine ⟨rfl, fun v => ?_⟩
  cases v <;> simp [valueIs, valueAint]

/-- Claim C9: handling a click of the Run button only parses the stored text:
the resulting output is the debug format of the error kind on parse failure
and the printed program on success, the stored input text is unchanged, and
update requests a re-render for every message. -/
theorem claim9_update_parses_only :
    ∀ (P E : Type) (parse : Str → Except E P) (printProgram : P → Str)
      (debugFmt : E → Str) (m : Model),
      (update parse printProgram debugFmt m Msg.ClickRun).1.value = m.value
    ∧ (update parse printProgram debugFmt m Msg.ClickRun).1.program =
        (match parse m.value with
         | .error err => debugFmt err
         | .ok val => printProgram val)
    ∧ (∀ msg : Msg, (update parse printProgram debugFmt m msg).2 = true) := by
  intro P E parse printProgram debugFmt m
  refine ⟨?_, ?_, ?_⟩
  · cases hp : parse m.value <;> simp [update, hp]
  · cases hp : parse m.value <;> simp [update, hp]
  · intro msg
    cases msg with
    | GotInput s => rfl
    | ClickRun => cases hp : parse m.value <;> simp [update, hp]

/-- Claim C10: the structural equality mirroring the derived PartialEq is
reflexive on every expression, command, command line and program free of NaN
f64 payloads, is symmetric and transitive, but is not reflexive in general: a
Floating literal whose payload is NaN compares unequal to itself, and so does
a program containing one, so the equality is symmetric and transitive but
not reflexive. -/
theorem claim10_equality_reflexivity :
    (∀ e : Expression, nanFree e = true → exprEq e e = true)
  ∧ exprEq (Expression.Floating none) (Expression.Floating none) = false
  ∧ (∀ a b : Expression, exprEq a b = exprEq b a)
  ∧ (∀ a b c : Expression,
      exprEq a b = true → exprEq b c = true → exprEq a c = true)
  ∧ (∀ c : Command, nanFreeCmd c = true → commandEq c c = true)
  ∧ (∀ cl : CommandLine, nanFreeCmd cl.cmd = true → commandLineEq cl cl = true)
  ∧ (∀ p : Program, (p.functions.map Prod.fst).Nodup → nanFreeProgram p = true →
      programEq p p = true)
  ∧ programEq nanProgram nanProgram = false := by
  refine ⟨exprEq_refl, by simp [exprEq, f64Eq], exprEq_symm, exprEq_trans,
          commandEq_refl, commandLineEq_refl, programEq_refl, ?_⟩
  simp [nanProgram, programEq, commandLinesEq, commandLineEq, commandEq,
        exprEq, f64Eq]

/-- Claim C10 witness: the reflexivity and transitivity statements evaluated
at concrete NaN-free inputs. -/
theorem claim10_witness :
    exprEq (Expression.Floating (some 1)) (Expression.Floating (some 1)) = true
  ∧ exprEq Expression.Null Expression.Null = true
  ∧ commandEq Command.EndIf Command.EndIf = true
  ∧ commandLineEq (CommandLine.mk Command.EndIf 4) (CommandLine.mk Command.EndIf 4) = true
  ∧ programEq sampleProgram sampleProgram = true :=
  ⟨claim10_equality_reflexivity.1 _ (by simp [nanFree]),
   claim10_equality_reflexivity.2.2.2.1 Expression.Null Expression.Null Expression.Null
     (by simp [exprEq]) (by simp [exprEq]),
   claim10_equality_reflexivity.2.2.2.2.1 Command.EndIf (by simp [nanFreeCmd]),
   claim10_equality_reflexivity.2.2.2.2.2.1 (CommandLine.mk Command.EndIf 4)
     (by simp [nanFreeCmd]),
   claim10_equality_reflexivity.2.2.2.2.2.2.1 sampleProgram
     (by simp [sampleProgram])
     (by simp [sampleProgram, nanFreeProgram, nanFreeCmd, nanFree])⟩

end Maiden
